import Mathlib

/-!
Verification of the `meltano run` command orchestration logic
(`src/meltano/cli/run.py`): the `run` click command and the `_run_blocks`
execution engine.

The engine is embedded as explicit state passing over a `Tracker` record
that accumulates an ordered trace of observable actions (block-level and
run-level tracking events, log calls, unit `run()` invocations, the legacy
tracker call).  External collaborators that are not part of this file of the
repository — the block parser, the block-set validator, each block's `run()`
coroutine, and the tracking client — are modelled as parameters or as
pre-determined outcomes carried by the block values, so that every control
path of `run.py` is represented faithfully.
-/

namespace Meltano

/-- A plugin, identified by its `string_id` (the only attribute `run.py`
reads from a plugin). -/
structure Plugin where
  string_id : String
deriving DecidableEq, Repr

/-- Python exceptions relevant to `run.py`: `RunnerError` (with its
`exitcodes` attribute and message), `CliError` raised bare, `CliError`
raised with a `__cause__` (`raise ... from err`), and any other exception
(opaque tag). -/
inductive Exc where
  | runnerError (exitcodes : List Int) (msg : String)
  | cliError (msg : String)
  | cliErrorFrom (msg : String) (cause : Exc)
  | otherExc (tag : Nat)
deriving DecidableEq, Repr

/-- The settled outcome of awaiting a block's `run()` coroutine: it either
returns normally or raises an exception. -/
inductive RunOutcome where
  | success
  | raises (e : Exc)
deriving DecidableEq, Repr

/-- An executable unit of the parsed plan: `_run_blocks` receives a
`list[BlockSet | PluginCommandBlock]`.  A `BlockSet` exposes its constituent
plugins via `.blocks`; a `PluginCommandBlock` exposes `.string_id` and
`.command`.  The outcome of the unit's `run()` is carried as data since the
actual execution is an external collaborator. -/
inductive Block where
  | blockSet (plugins : List Plugin) (outcome : RunOutcome)
  | pluginCommand (string_id : String) (command : String) (outcome : RunOutcome)
deriving DecidableEq, Repr

/-- `blk.__class__.__name__`, determined by which variant the unit is. -/
def Block.className : Block → String
  | .blockSet _ _ => "BlockSet"
  | .pluginCommand _ _ _ => "PluginCommandBlock"

/-- The outcome of awaiting this block's `run()`. -/
def Block.outcome : Block → RunOutcome
  | .blockSet _ oc => oc
  | .pluginCommand _ _ oc => oc

/-- Modelled from the spec: `PluginsTrackingContext.from_block` (defined in
`meltano.core.tracking`, outside this file of the repository) derives a
tracking context from the unit's constituent plugin identities. -/
def PluginsTrackingContext.from_block : Block → List String
  | .blockSet plugins _ => plugins.map Plugin.string_id
  | .pluginCommand sid _ _ => [sid]

/-- Block-level lifecycle events (`meltano.core.tracking.BlockEvents`). -/
inductive BlockEvents where
  | initialized
  | completed
  | failed
deriving DecidableEq, Repr

/-- Run-level lifecycle events (`meltano.core.tracking.CliEvent`). -/
inductive CliEvent where
  | aborted
  | failed
  | completed
deriving DecidableEq, Repr

/-- The `comprised_of` payload of the dry-run log line: a list of plugin
ids for a `BlockSet`, or the single `"{string_id}:{command}"` string for a
`PluginCommandBlock`. -/
inductive Comprised where
  | plugins (ids : List String)
  | command (s : String)
deriving DecidableEq, Repr

/-- One observable action of `run` / `_run_blocks`, in program order. -/
inductive TraceItem where
  /-- `tracker.track_block_event(blk_name, ev)`; records the contexts
  attached to the tracker at the moment of emission. -/
  | blockEvent (blkName : String) (ctxs : List (List String)) (ev : BlockEvents)
  /-- `tracker.track_command_event(ev)`. -/
  | commandEvent (ev : CliEvent)
  /-- `logger.info("Dry run, but would have run block {num}/{total}.", block_type=…, comprised_of=…)`. -/
  | dryRunLog (num total : Nat) (blockType : String) (comprised : Comprised)
  /-- `await blk.run()` was invoked for the unit at index `idx`. -/
  | runInvoked (idx : Nat)
  /-- `logger.info("Block run completed.", set_number=idx, …, success=True)`. -/
  | logBlockCompleted (idx : Nat) (blockType : String)
  /-- `logger.error("Block run completed.", set_number=idx, …, success=False, exit_codes=…)`. -/
  | logBlockFailed (idx : Nat) (blockType : String) (exitcodes : List Int)
  /-- `logger.info("No valid blocks found.")`. -/
  | logNoValidBlocks
  /-- `logger.debug("All ExtractLoadBlocks validated, starting execution.")`. -/
  | logValidated
  /-- `legacy_tracker.track_meltano_run(blocks)`. -/
  | legacyTrackRun (blocks : List String)
deriving DecidableEq, Repr

/-- Modelled from the spec: the Tracker collaborator.  `contexts` is the
stack of tracking contexts currently attached via `with_contexts`; `trace`
is the ordered list of observable actions performed so far. -/
structure Tracker where
  contexts : List (List String)
  trace : List TraceItem
deriving DecidableEq, Repr

/-- Append one observable action to the trace. -/
def Tracker.log (t : Tracker) (i : TraceItem) : Tracker :=
  { t with trace := t.trace ++ [i] }

/-- Modelled from the spec: `tracker.track_block_event(name, ev)` emits a
block-level event carrying the contexts attached at that moment. -/
def Tracker.track_block_event (t : Tracker) (name : String) (ev : BlockEvents) : Tracker :=
  t.log (.blockEvent name t.contexts ev)

/-- Modelled from the spec: `tracker.track_command_event(ev)` emits a
run-level event. -/
def Tracker.track_command_event (t : Tracker) (ev : CliEvent) : Tracker :=
  t.log (.commandEvent ev)

/-- Entering `with tracker.with_contexts(ctx):` attaches `ctx`. -/
def Tracker.pushContext (t : Tracker) (c : List String) : Tracker :=
  { t with contexts := t.contexts ++ [c] }

/-- Leaving the `with` block detaches the most recently attached context. -/
def Tracker.popContext (t : Tracker) : Tracker :=
  { t with contexts := t.contexts.dropLast }

/-- Modelled from the spec: the idiom
`with tracker.with_contexts(ctx): tracker.track_block_event(name, ev)` —
the context is attached for the duration of that single emission only. -/
def Tracker.trackBlockEventWith (t : Tracker) (c : List String) (name : String)
    (ev : BlockEvents) : Tracker :=
  ((t.pushContext c).track_block_event name ev).popContext

/-- The loop body of `_run_blocks` over the remaining blocks, with `idx` the
enumeration index of the head and `total` the length of the full plan
(`len(parsed_blocks)`).  Returns the final tracker state together with the
exception the loop raised, if any. -/
def runBlocksAux (dry_run : Bool) (total : Nat) : Nat → Tracker → List Block →
    Tracker × Option Exc
  | _, t, [] => (t, none)
  | idx, t, blk :: rest =>
    let blk_name := blk.className
    let tracking_ctx := PluginsTrackingContext.from_block blk
    let t1 := t.trackBlockEventWith tracking_ctx blk_name .initialized
    if dry_run then
      let t2 :=
        match blk with
        | .blockSet plugins _ =>
            t1.log (.dryRunLog (idx + 1) total blk_name
              (.plugins (plugins.map Plugin.string_id)))
        | .pluginCommand sid cmd _ =>
            t1.log (.dryRunLog (idx + 1) total blk_name (.command (sid ++ ":" ++ cmd)))
      runBlocksAux dry_run total (idx + 1) t2 rest
    else
      let t2 := t1.log (.runInvoked idx)
      match blk.outcome with
      | .success =>
          let t3 := t2.log (.logBlockCompleted idx blk_name)
          let t4 := t3.trackBlockEventWith tracking_ctx blk_name .completed
          runBlocksAux dry_run total (idx + 1) t4 rest
      | .raises (.runnerError codes msg) =>
          let t3 := t2.log (.logBlockFailed idx blk_name codes)
          let t4 := t3.trackBlockEventWith tracking_ctx blk_name .failed
          (t4, some (.cliErrorFrom
            ("Run invocation could not be completed as block failed: " ++ msg)
            (.runnerError codes msg)))
      | .raises e =>
          let t3 := t2.trackBlockEventWith tracking_ctx blk_name .failed
          (t3, some e)

/-- `_run_blocks(tracker, parsed_blocks, dry_run)`. -/
def run_blocks (t : Tracker) (parsed_blocks : List Block) (dry_run : Bool) :
    Tracker × Option Exc :=
  runBlocksAux dry_run parsed_blocks.length 0 t parsed_blocks

/-- The body of the `run` command after CLI setup.  `parseResult` stands for
`list(BlockParser(...).find_blocks(0))`: either the parsed plan or the
exception the parser raised.  `validate` stands for the external
`validate_block_sets`.  Returns the final tracker state and the exception
the command raised, if any. -/
def run (t : Tracker) (blocks : List String) (parseResult : Except Exc (List Block))
    (validate : List Block → Bool) (dry_run : Bool) : Tracker × Option Exc :=
  match parseResult with
  | .error parser_err => (t.track_command_event .aborted, some parser_err)
  | .ok parsed_blocks =>
    if parsed_blocks.isEmpty then
      ((t.track_command_event .aborted).log .logNoValidBlocks, none)
    else if validate parsed_blocks then
      let t1 := t.log .logValidated
      match run_blocks t1 parsed_blocks dry_run with
      | (t2, some err) => (t2.track_command_event .failed, some err)
      | (t2, none) =>
          ((t2.track_command_event .completed).log (.legacyTrackRun blocks), none)
    else
      (t.track_command_event .aborted,
        some (.cliError "Some ExtractLoadBlocks set failed validation."))

/-- The exact trace the non-dry-run loop appends, starting at index `idx`
with context stack `base`: per unit, an initialized event, the `run()`
invocation, then on success the success log and completed event, on a
`RunnerError` the error log (with exit codes) and failed event (stopping),
and on any other exception just the failed event (stopping). -/
def execTrace (base : List (List String)) : Nat → List Block → List TraceItem
  | _, [] => []
  | idx, blk :: rest =>
    let n := blk.className
    let c := base ++ [PluginsTrackingContext.from_block blk]
    match blk.outcome with
    | .success =>
        TraceItem.blockEvent n c .initialized :: TraceItem.runInvoked idx ::
        TraceItem.logBlockCompleted idx n :: TraceItem.blockEvent n c .completed ::
        execTrace base (idx + 1) rest
    | .raises (.runnerError codes _) =>
        [TraceItem.blockEvent n c .initialized, TraceItem.runInvoked idx,
         TraceItem.logBlockFailed idx n codes, TraceItem.blockEvent n c .failed]
    | .raises _ =>
        [TraceItem.blockEvent n c .initialized, TraceItem.runInvoked idx,
         TraceItem.blockEvent n c .failed]

/-- The exception the non-dry-run loop raises: the first failing unit's
`RunnerError` wrapped in a `CliError` (with cause), or the first failing
unit's other exception unchanged; `none` when every unit succeeds. -/
def execExc : List Block → Option Exc
  | [] => none
  | blk :: rest =>
    match blk.outcome with
    | .success => execExc rest
    | .raises (.runnerError codes msg) =>
        some (.cliErrorFrom
          ("Run invocation could not be completed as block failed: " ++ msg)
          (.runnerError codes msg))
    | .raises e => some e

/-- The exact trace the dry-run loop appends: per unit, an initialized event
followed by the dry-run log line, for every unit of the plan. -/
def dryTrace (base : List (List String)) (total : Nat) : Nat → List Block → List TraceItem
  | _, [] => []
  | idx, blk :: rest =>
    let n := blk.className
    let c := base ++ [PluginsTrackingContext.from_block blk]
    let logItem :=
      match blk with
      | .blockSet plugins _ =>
          TraceItem.dryRunLog (idx + 1) total n (.plugins (plugins.map Plugin.string_id))
      | .pluginCommand sid cmd _ =>
          TraceItem.dryRunLog (idx + 1) total n (.command (sid ++ ":" ++ cmd))
    TraceItem.blockEvent n c .initialized :: logItem :: dryTrace base total (idx + 1) rest

/-- The subsequence of block-level tracking events of a trace, each with the
block name, the context stack seen at emission, and the event kind. -/
def blockEvents : List TraceItem → List (String × List (List String) × BlockEvents)
  | [] => []
  | .blockEvent n c e :: rest => (n, c, e) :: blockEvents rest
  | _ :: rest => blockEvents rest

/-- Is this trace item an invocation of some unit's `run()`? -/
def TraceItem.isRunInvoked : TraceItem → Bool
  | .runInvoked _ => true
  | _ => false

/-- Is this trace item a block-level "initialized" event? -/
def TraceItem.isInitialized : TraceItem → Bool
  | .blockEvent _ _ .initialized => true
  | _ => false

/-- Is this trace item a run-level (command) event? -/
def TraceItem.isCommandEvent : TraceItem → Bool
  | .commandEvent _ => true
  | _ => false

/-- The canonical per-unit block-event interleaving of a non-dry run: for
every unit in order, "initialized" followed by exactly one of "completed"
(when its `run()` returned) or "failed" (when it raised), stopping at the
first failing unit; every event carries the unit's class name and the base
context stack extended by that unit's plugins context. -/
def canonicalEvents (base : List (List String)) :
    List Block → List (String × List (List String) × BlockEvents)
  | [] => []
  | blk :: rest =>
    let n := blk.className
    let c := base ++ [PluginsTrackingContext.from_block blk]
    match blk.outcome with
    | .success => (n, c, .initialized) :: (n, c, .completed) :: canonicalEvents base rest
    | .raises _ => [(n, c, .initialized), (n, c, .failed)]

/-- Every event of the list names some unit of the plan `bs` and carries
exactly the base context stack `cs` extended by that unit's plugins-derived
context (so the extension is scoped to single emissions, never left
attached). -/
def eventsScoped (cs : List (List String)) (bs : List Block) :
    List (String × List (List String) × BlockEvents) → Prop
  | [] => True
  | x :: rest =>
    (∃ b, b ∈ bs ∧ x.1 = b.className ∧
      x.2.1 = cs ++ [PluginsTrackingContext.from_block b]) ∧
    eventsScoped cs bs rest

/-- Discriminator for the `except RunnerError` clause. -/
def Exc.isRunnerErr : Exc → Bool
  | .runnerError _ _ => true
  | _ => false

/-- A sample successful command unit, used to instantiate theorems. -/
def sampleBlock : Block := Block.pluginCommand "dbt" "run" RunOutcome.success

/-- A sample fresh tracker, used to instantiate theorems. -/
def sampleTracker : Tracker := { contexts := [], trace := [] }

/-! ### Lemmas and claim theorems -/

theorem trackBlockEventWith_eq (t : Tracker) (c : List String) (n : String)
    (ev : BlockEvents) :
    t.trackBlockEventWith c n ev =
      { contexts := t.contexts,
        trace := t.trace ++ [.blockEvent n (t.contexts ++ [c]) ev] } := by
  simp [Tracker.trackBlockEventWith, Tracker.pushContext, Tracker.track_block_event,
    Tracker.log, Tracker.popContext, List.dropLast_concat]

/-- Master lemma, non-dry run: the loop appends exactly `execTrace`, leaves
the context stack unchanged, and raises exactly `execExc`. -/
theorem runBlocksAux_false_eq (total : Nat) (bs : List Block) :
    ∀ (idx : Nat) (t : Tracker),
      runBlocksAux false total idx t bs =
        ({ contexts := t.contexts, trace := t.trace ++ execTrace t.contexts idx bs },
         execExc bs) := by
  induction bs with
  | nil => intro idx t; simp [runBlocksAux, execTrace, execExc]
  | cons blk rest ih =>
    intro idx t
    match blk with
    | .blockSet plugins oc =>
      cases oc with
      | success =>
          simp [runBlocksAux, execTrace, execExc, trackBlockEventWith_eq,
            Tracker.log, Block.outcome, Block.className, ih]
      | raises e =>
          cases e <;>
            simp [runBlocksAux, execTrace, execExc, trackBlockEventWith_eq,
              Tracker.log, Block.outcome, Block.className]
    | .pluginCommand sid cmd oc =>
      cases oc with
      | success =>
          simp [runBlocksAux, execTrace, execExc, trackBlockEventWith_eq,
            Tracker.log, Block.outcome, Block.className, ih]
      | raises e =>
          cases e <;>
            simp [runBlocksAux, execTrace, execExc, trackBlockEventWith_eq,
              Tracker.log, Block.outcome, Block.className]

/-- Master lemma, dry run: the loop appends exactly `dryTrace`, leaves the
context stack unchanged, and never raises. -/
theorem runBlocksAux_true_eq (total : Nat) (bs : List Block) :
    ∀ (idx : Nat) (t : Tracker),
      runBlocksAux true total idx t bs =
        ({ contexts := t.contexts, trace := t.trace ++ dryTrace t.contexts total idx bs },
         none) := by
  induction bs with
  | nil => intro idx t; simp [runBlocksAux, dryTrace]
  | cons blk rest ih =>
    intro idx t
    match blk with
    | .blockSet plugins oc =>
        simp [runBlocksAux, dryTrace, trackBlockEventWith_eq, Tracker.log,
          Block.className, ih]
    | .pluginCommand sid cmd oc =>
        simp [runBlocksAux, dryTrace, trackBlockEventWith_eq, Tracker.log,
          Block.className, ih]

theorem blockEvents_append (l1 l2 : List TraceItem) :
    blockEvents (l1 ++ l2) = blockEvents l1 ++ blockEvents l2 := by
  induction l1 with
  | nil => rfl
  | cons x rest ih => cases x <;> simp [blockEvents, ih]

/-- A plan prefix of successful units contributes its exact trace and the
loop continues after it. -/
theorem execTrace_append_of_success (base : List (List String)) (pre : List Block)
    (h : ∀ b ∈ pre, b.outcome = RunOutcome.success) :
    ∀ (idx : Nat) (l2 : List Block),
      execTrace base idx (pre ++ l2) =
        execTrace base idx pre ++ execTrace base (idx + pre.length) l2 := by
  induction pre with
  | nil => intro idx l2; simp [execTrace]
  | cons b rest ih =>
    intro idx l2
    have hb : b.outcome = RunOutcome.success := h b (by simp)
    have hrest : ∀ x ∈ rest, x.outcome = RunOutcome.success := fun x hx => h x (by simp [hx])
    have h1 : idx + 1 + rest.length = idx + (rest.length + 1) := by omega
    simp only [List.cons_append, execTrace, hb, List.append_eq, ih hrest,
      List.append_assoc, List.length_cons, h1]

theorem execExc_append_of_success (pre : List Block)
    (h : ∀ b ∈ pre, b.outcome = RunOutcome.success) (l2 : List Block) :
    execExc (pre ++ l2) = execExc l2 := by
  induction pre with
  | nil => rfl
  | cons b rest ih =>
    have hb : b.outcome = RunOutcome.success := h b (by simp)
    have hrest : ∀ x ∈ rest, x.outcome = RunOutcome.success := fun x hx => h x (by simp [hx])
    simp [execExc, hb, ih hrest]

theorem countInvoked_execTrace_success (base : List (List String)) (pre : List Block)
    (h : ∀ b ∈ pre, b.outcome = RunOutcome.success) :
    ∀ idx : Nat, (execTrace base idx pre).countP TraceItem.isRunInvoked = pre.length := by
  induction pre with
  | nil => intro idx; rfl
  | cons b rest ih =>
    intro idx
    have hb : b.outcome = RunOutcome.success := h b (by simp)
    have hrest : ∀ x ∈ rest, x.outcome = RunOutcome.success := fun x hx => h x (by simp [hx])
    simp [execTrace, hb, List.countP_cons, TraceItem.isRunInvoked, ih hrest,
      Nat.add_comm]

theorem countInitialized_execTrace_success (base : List (List String)) (pre : List Block)
    (h : ∀ b ∈ pre, b.outcome = RunOutcome.success) :
    ∀ idx : Nat, (execTrace base idx pre).countP TraceItem.isInitialized = pre.length := by
  induction pre with
  | nil => intro idx; rfl
  | cons b rest ih =>
    intro idx
    have hb : b.outcome = RunOutcome.success := h b (by simp)
    have hrest : ∀ x ∈ rest, x.outcome = RunOutcome.success := fun x hx => h x (by simp [hx])
    simp [execTrace, hb, List.countP_cons, TraceItem.isInitialized, ih hrest,
      Nat.add_comm]

theorem blockEvents_execTrace (base : List (List String)) (bs : List Block) :
    ∀ idx : Nat, blockEvents (execTrace base idx bs) = canonicalEvents base bs := by
  induction bs with
  | nil => intro idx; rfl
  | cons blk rest ih =>
    intro idx
    cases hoc : blk.outcome with
    | success => simp [execTrace, canonicalEvents, hoc, blockEvents, ih]
    | raises e => cases e <;> simp [execTrace, canonicalEvents, hoc, blockEvents]

theorem blockEvents_dryTrace (base : List (List String)) (total : Nat) (bs : List Block) :
    ∀ idx : Nat,
      blockEvents (dryTrace base total idx bs) =
        bs.map (fun b =>
          (b.className, base ++ [PluginsTrackingContext.from_block b],
            BlockEvents.initialized)) := by
  induction bs with
  | nil => intro idx; rfl
  | cons blk rest ih =>
    intro idx
    cases blk <;> simp [dryTrace, blockEvents, ih]

theorem countCommandEvent_execTrace (base : List (List String)) (bs : List Block) :
    ∀ idx : Nat, (execTrace base idx bs).countP TraceItem.isCommandEvent = 0 := by
  induction bs with
  | nil => intro idx; rfl
  | cons blk rest ih =>
    intro idx
    cases hoc : blk.outcome with
    | success => simp [execTrace, hoc, List.countP_cons, TraceItem.isCommandEvent, ih]
    | raises e =>
        cases e <;> simp [execTrace, hoc, List.countP_cons, TraceItem.isCommandEvent]

theorem countCommandEvent_dryTrace (base : List (List String)) (total : Nat)
    (bs : List Block) :
    ∀ idx : Nat, (dryTrace base total idx bs).countP TraceItem.isCommandEvent = 0 := by
  induction bs with
  | nil => intro idx; rfl
  | cons blk rest ih =>
    intro idx
    cases blk <;> simp [dryTrace, List.countP_cons, TraceItem.isCommandEvent, ih]

theorem countInvoked_dryTrace (base : List (List String)) (total : Nat)
    (bs : List Block) :
    ∀ idx : Nat, (dryTrace base total idx bs).countP TraceItem.isRunInvoked = 0 := by
  induction bs with
  | nil => intro idx; rfl
  | cons blk rest ih =>
    intro idx
    cases blk <;> simp [dryTrace, List.countP_cons, TraceItem.isRunInvoked, ih]

theorem eventsScoped_mono (cs : List (List String)) (b : Block) (bs : List Block)
    (l : List (String × List (List String) × BlockEvents)) :
    eventsScoped cs bs l → eventsScoped cs (b :: bs) l := by
  induction l with
  | nil => intro h; trivial
  | cons x rest ih =>
    intro h
    obtain ⟨⟨b0, hb0, h1, h2⟩, hrest⟩ := h
    exact ⟨⟨b0, by simp [hb0], h1, h2⟩, ih hrest⟩

theorem eventsScoped_canonical (cs : List (List String)) (bs : List Block) :
    eventsScoped cs bs (canonicalEvents cs bs) := by
  induction bs with
  | nil => trivial
  | cons blk rest ih =>
    cases hoc : blk.outcome with
    | success =>
        simp only [canonicalEvents, hoc]
        refine ⟨⟨blk, by simp, rfl, rfl⟩, ⟨blk, by simp, rfl, rfl⟩, ?_⟩
        exact eventsScoped_mono cs blk rest _ ih
    | raises e =>
        simp only [canonicalEvents, hoc]
        exact ⟨⟨blk, by simp, rfl, rfl⟩, ⟨blk, by simp, rfl, rfl⟩, trivial⟩

theorem eventsScoped_dry (cs : List (List String)) (bs : List Block) :
    eventsScoped cs bs
      (bs.map (fun b =>
        (b.className, cs ++ [PluginsTrackingContext.from_block b],
          BlockEvents.initialized))) := by
  induction bs with
  | nil => trivial
  | cons blk rest ih =>
    exact ⟨⟨blk, by simp, rfl, rfl⟩, eventsScoped_mono cs blk rest _ ih⟩

theorem execTrace_fail_head (base : List (List String)) (blk : Block)
    (rest : List Block) (hfail : blk.outcome ≠ RunOutcome.success) (idx : Nat) :
    (execTrace base idx (blk :: rest)).countP TraceItem.isRunInvoked = 1 ∧
    (execTrace base idx (blk :: rest)).countP TraceItem.isInitialized = 1 ∧
    (execExc (blk :: rest)).isSome := by
  cases hoc : blk.outcome with
  | success => exact absurd hoc hfail
  | raises e =>
      cases e <;>
        simp [execTrace, execExc, hoc, List.countP_cons, TraceItem.isRunInvoked,
          TraceItem.isInitialized]

/-- Claim C1: abort on first failure.  For a plan `pre ++ blk :: rest` run
with `dry_run = false`, where every unit of `pre` succeeds and `blk` (at
index `pre.length`) raises any exception, the engine invokes exactly
`pre.length + 1` units' `run()` and emits exactly `pre.length + 1`
"initialized" block events — so no unit after the failing one is executed or
initialized — and the run raises. -/
theorem abort_on_first_failure (t : Tracker) (pre rest : List Block) (blk : Block)
    (hpre : ∀ b ∈ pre, b.outcome = RunOutcome.success)
    (hfail : blk.outcome ≠ RunOutcome.success) :
    (run_blocks t (pre ++ blk :: rest) false).1.trace.countP TraceItem.isRunInvoked =
      t.trace.countP TraceItem.isRunInvoked + (pre.length + 1) ∧
    (run_blocks t (pre ++ blk :: rest) false).1.trace.countP TraceItem.isInitialized =
      t.trace.countP TraceItem.isInitialized + (pre.length + 1) ∧
    (run_blocks t (pre ++ blk :: rest) false).2.isSome := by
  have hf := execTrace_fail_head t.contexts blk rest hfail pre.length
  simp only [run_blocks, runBlocksAux_false_eq,
    execTrace_append_of_success t.contexts pre hpre,
    execExc_append_of_success pre hpre]
  refine ⟨?_, ?_, hf.2.2⟩ <;>
    simp [List.countP_append, countInvoked_execTrace_success t.contexts pre hpre,
      countInitialized_execTrace_success t.contexts pre hpre, hf.1, hf.2.1]

/-- Witness for C1 at a concrete plan: one successful unit, then a unit
raising an unstructured exception, then one further unit that must never
start. -/
theorem abort_on_first_failure_app :
    (run_blocks { contexts := [], trace := [] }
        ([Block.pluginCommand "a" "x" RunOutcome.success] ++
          Block.pluginCommand "b" "y" (RunOutcome.raises (Exc.otherExc 0)) ::
            [Block.pluginCommand "c" "z" RunOutcome.success]) false).1.trace.countP
        TraceItem.isRunInvoked =
      (Tracker.mk [] []).trace.countP TraceItem.isRunInvoked +
        ([Block.pluginCommand "a" "x" RunOutcome.success].length + 1) ∧
    (run_blocks { contexts := [], trace := [] }
        ([Block.pluginCommand "a" "x" RunOutcome.success] ++
          Block.pluginCommand "b" "y" (RunOutcome.raises (Exc.otherExc 0)) ::
            [Block.pluginCommand "c" "z" RunOutcome.success]) false).1.trace.countP
        TraceItem.isInitialized =
      (Tracker.mk [] []).trace.countP TraceItem.isInitialized +
        ([Block.pluginCommand "a" "x" RunOutcome.success].length + 1) ∧
    (run_blocks { contexts := [], trace := [] }
        ([Block.pluginCommand "a" "x" RunOutcome.success] ++
          Block.pluginCommand "b" "y" (RunOutcome.raises (Exc.otherExc 0)) ::
            [Block.pluginCommand "c" "z" RunOutcome.success]) false).2.isSome :=
  abort_on_first_failure { contexts := [], trace := [] }
    [Block.pluginCommand "a" "x" RunOutcome.success]
    [Block.pluginCommand "c" "z" RunOutcome.success]
    (Block.pluginCommand "b" "y" (RunOutcome.raises (Exc.otherExc 0)))
    (by decide) (by decide)

/-- Claim C2: structured runner failure handling.  When every unit before
`blk` succeeds and `blk.run()` raises `RunnerError codes msg`, the engine
appends, after the prefix trace: `blk`'s "initialized" event, the `run()`
invocation, the error log carrying the exit codes, and `blk`'s "failed"
event — and raises a `CliError` whose message names the failure and whose
cause is the unit-level `RunnerError`, with nothing after (all remaining
units aborted). -/
theorem runner_error_wrapped (t : Tracker) (pre rest : List Block) (blk : Block)
    (codes : List Int) (msg : String)
    (hpre : ∀ b ∈ pre, b.outcome = RunOutcome.success)
    (hfail : blk.outcome = RunOutcome.raises (Exc.runnerError codes msg)) :
    run_blocks t (pre ++ blk :: rest) false =
      ({ contexts := t.contexts,
         trace := t.trace ++ execTrace t.contexts 0 pre ++
           [.blockEvent blk.className
              (t.contexts ++ [PluginsTrackingContext.from_block blk]) .initialized,
            .runInvoked pre.length,
            .logBlockFailed pre.length blk.className codes,
            .blockEvent blk.className
              (t.contexts ++ [PluginsTrackingContext.from_block blk]) .failed] },
       some (.cliErrorFrom
         ("Run invocation could not be completed as block failed: " ++ msg)
         (.runnerError codes msg))) := by
  simp [run_blocks, runBlocksAux_false_eq,
    execTrace_append_of_success t.contexts pre hpre,
    execExc_append_of_success pre hpre, execTrace, execExc, hfail]

/-- Witness for C2: a successful unit followed by a unit failing with
`RunnerError` with exit codes `[1]`. -/
theorem runner_error_wrapped_app :
    run_blocks { contexts := [], trace := [] }
        ([Block.pluginCommand "a" "x" RunOutcome.success] ++
          Block.blockSet [Plugin.mk "tap"]
              (RunOutcome.raises (Exc.runnerError [1] "boom")) :: []) false =
      ({ contexts := [],
         trace := (Tracker.mk [] []).trace ++
           execTrace [] 0 [Block.pluginCommand "a" "x" RunOutcome.success] ++
           [.blockEvent "BlockSet" ([] ++ [["tap"]]) .initialized,
            .runInvoked 1,
            .logBlockFailed 1 "BlockSet" [1],
            .blockEvent "BlockSet" ([] ++ [["tap"]]) .failed] },
       some (.cliErrorFrom
         ("Run invocation could not be completed as block failed: " ++ "boom")
         (.runnerError [1] "boom"))) :=
  runner_error_wrapped { contexts := [], trace := [] }
    [Block.pluginCommand "a" "x" RunOutcome.success] []
    (Block.blockSet [Plugin.mk "tap"] (RunOutcome.raises (Exc.runnerError [1] "boom")))
    [1] "boom" (by decide) rfl

/-- Claim C5: unstructured failure handling.  When every unit before `blk`
succeeds and `blk.run()` raises an exception that is not a `RunnerError`,
the engine still appends `blk`'s "failed" event (right after the
"initialized" event and the `run()` invocation) and then re-raises the
original exception unchanged — not wrapped in a `CliError` — aborting the
remaining units. -/
theorem unstructured_error_reraised (t : Tracker) (pre rest : List Block) (blk : Block)
    (e : Exc) (hpre : ∀ b ∈ pre, b.outcome = RunOutcome.success)
    (hfail : blk.outcome = RunOutcome.raises e) (hnr : e.isRunnerErr = false) :
    run_blocks t (pre ++ blk :: rest) false =
      ({ contexts := t.contexts,
         trace := t.trace ++ execTrace t.contexts 0 pre ++
           [.blockEvent blk.className
              (t.contexts ++ [PluginsTrackingContext.from_block blk]) .initialized,
            .runInvoked pre.length,
            .blockEvent blk.className
              (t.contexts ++ [PluginsTrackingContext.from_block blk]) .failed] },
       some e) := by
  cases e with
  | runnerError codes msg => simp [Exc.isRunnerErr] at hnr
  | cliError msg =>
      simp [run_blocks, runBlocksAux_false_eq,
        execTrace_append_of_success t.contexts pre hpre,
        execExc_append_of_success pre hpre, execTrace, execExc, hfail]
  | cliErrorFrom msg cause =>
      simp [run_blocks, runBlocksAux_false_eq,
        execTrace_append_of_success t.contexts pre hpre,
        execExc_append_of_success pre hpre, execTrace, execExc, hfail]
  | otherExc tag =>
      simp [run_blocks, runBlocksAux_false_eq,
        execTrace_append_of_success t.contexts pre hpre,
        execExc_append_of_success pre hpre, execTrace, execExc, hfail]

/-- Witness for C5: the first unit raises an unstructured exception; the
"failed" event is emitted and the exception propagates unchanged. -/
theorem unstructured_error_reraised_app :
    run_blocks { contexts := [], trace := [] }
        ([] ++ Block.pluginCommand "dbt" "run" (RunOutcome.raises (Exc.otherExc 7)) ::
          [Block.pluginCommand "c" "z" RunOutcome.success]) false =
      ({ contexts := [],
         trace := (Tracker.mk [] []).trace ++ execTrace [] 0 [] ++
           [.blockEvent "PluginCommandBlock" ([] ++ [["dbt"]]) .initialized,
            .runInvoked 0,
            .blockEvent "PluginCommandBlock" ([] ++ [["dbt"]]) .failed] },
       some (Exc.otherExc 7)) :=
  unstructured_error_reraised { contexts := [], trace := [] } []
    [Block.pluginCommand "c" "z" RunOutcome.success]
    (Block.pluginCommand "dbt" "run" (RunOutcome.raises (Exc.otherExc 7)))
    (Exc.otherExc 7) (by decide) rfl rfl

/-- Claim C3: per-unit event ordering.  For any plan executed with
`dry_run = false`, the subsequence of block-level events of the engine's
trace is exactly `canonicalEvents`: for every unit in order, "initialized"
followed by exactly one of "completed" (its `run()` returned) or "failed"
(its `run()` raised), both emitted before the next unit's "initialized";
no "completed" event is ever emitted for a unit whose `run()` raised. -/
theorem per_unit_event_ordering (t : Tracker) (bs : List Block) :
    blockEvents (run_blocks t bs false).1.trace =
      blockEvents t.trace ++ canonicalEvents t.contexts bs := by
  simp [run_blocks, runBlocksAux_false_eq, blockEvents_append, blockEvents_execTrace]

/-- Claim C4: dry-run behavior.  With `dry_run = true` the engine iterates
the full plan in order, appending exactly `dryTrace` (per unit: one
"initialized" event, then the log line with the unit's type and constituent
plugin ids or `plugin:command` string) and raising nothing; its block-level
events are exactly one "initialized" per unit of the plan (so zero
"completed"/"failed" events), and no unit's `run()` is ever invoked. -/
theorem dry_run_behavior (t : Tracker) (bs : List Block) :
    run_blocks t bs true =
      ({ contexts := t.contexts,
         trace := t.trace ++ dryTrace t.contexts bs.length 0 bs }, none) ∧
    blockEvents (run_blocks t bs true).1.trace =
      blockEvents t.trace ++
        bs.map (fun b =>
          (b.className, t.contexts ++ [PluginsTrackingContext.from_block b],
            BlockEvents.initialized)) ∧
    (run_blocks t bs true).1.trace.countP TraceItem.isRunInvoked =
      t.trace.countP TraceItem.isRunInvoked := by
  refine ⟨by simp [run_blocks, runBlocksAux_true_eq], ?_, ?_⟩
  · simp [run_blocks, runBlocksAux_true_eq, blockEvents_append, blockEvents_dryTrace]
  · simp [run_blocks, runBlocksAux_true_eq, List.countP_append, countInvoked_dryTrace]

/-- Claim C8: scoped event context.  In either mode, every block-level event
the engine emits carries the class name of some unit of the plan and the
tracker's context stack extended by exactly that unit's plugins-derived
tracking context, and the engine returns the tracker with its context stack
unchanged — the per-unit context is attached only for the single emission,
never left attached process-wide. -/
theorem scoped_event_context (t : Tracker) (bs : List Block) (dry_run : Bool) :
    (run_blocks t bs dry_run).1.contexts = t.contexts ∧
    eventsScoped t.contexts bs
      ((blockEvents (run_blocks t bs dry_run).1.trace).drop
        (blockEvents t.trace).length) := by
  cases dry_run with
  | false =>
      refine ⟨by simp [run_blocks, runBlocksAux_false_eq], ?_⟩
      simp only [run_blocks, runBlocksAux_false_eq, blockEvents_append,
        blockEvents_execTrace, List.drop_left]
      exact eventsScoped_canonical t.contexts bs
  | true =>
      refine ⟨by simp [run_blocks, runBlocksAux_true_eq], ?_⟩
      simp only [run_blocks, runBlocksAux_true_eq, blockEvents_append,
        blockEvents_dryTrace, List.drop_left]
      exact eventsScoped_dry t.contexts bs

/-- Claim C6: whole-plan validation before execution.  `validate` is applied
to the entire parsed plan before `_run_blocks` is called; when it fails on a
non-empty plan, the command appends exactly one run-level "aborted" event and
raises the validation `CliError` — so no unit's `run()` is invoked and no
block-level event is emitted (the trace grows by the single "aborted" item
only), in either mode. -/
theorem validation_failure_aborts (t : Tracker) (blocks : List String)
    (bs : List Block) (validate : List Block → Bool) (dry_run : Bool)
    (hne : bs.isEmpty = false) (hval : validate bs = false) :
    run t blocks (.ok bs) validate dry_run =
      ({ contexts := t.contexts, trace := t.trace ++ [.commandEvent .aborted] },
       some (.cliError "Some ExtractLoadBlocks set failed validation.")) := by
  simp [run, hne, hval, Tracker.track_command_event, Tracker.log]

/-- Witness for C6: a one-unit plan rejected by the validator. -/
theorem validation_failure_aborts_app :
    run { contexts := [], trace := [] } ["tap", "target"]
        (.ok [Block.blockSet [Plugin.mk "tap", Plugin.mk "target"] RunOutcome.success])
        (fun _ => false) false =
      ({ contexts := [],
         trace := (Tracker.mk [] []).trace ++ [.commandEvent .aborted] },
       some (.cliError "Some ExtractLoadBlocks set failed validation.")) :=
  validation_failure_aborts { contexts := [], trace := [] } ["tap", "target"]
    [Block.blockSet [Plugin.mk "tap", Plugin.mk "target"] RunOutcome.success]
    (fun _ => false) false rfl rfl

/-- Claim C7: pre-execution error propagation.  When the block parser raises
any exception, the command appends exactly one run-level "aborted" event and
re-raises that same exception: no unit is executed and no event other than
the run-level "aborted" is emitted. -/
theorem parser_error_aborts (t : Tracker) (blocks : List String) (e : Exc)
    (validate : List Block → Bool) (dry_run : Bool) :
    run t blocks (.error e) validate dry_run =
      ({ contexts := t.contexts, trace := t.trace ++ [.commandEvent .aborted] },
       some e) := by
  simp [run, Tracker.track_command_event, Tracker.log]

/-- Claim C9: empty-plan edge case.  When parsing succeeds with zero units,
the command appends the run-level "aborted" event followed by the
"No valid blocks found." log and returns normally (`none`): no unit is
executed, no block-level event is emitted, and no run-level "completed"
event is emitted. -/
theorem empty_plan_returns (t : Tracker) (blocks : List String)
    (validate : List Block → Bool) (dry_run : Bool) :
    run t blocks (.ok []) validate dry_run =
      ({ contexts := t.contexts,
         trace := t.trace ++ [.commandEvent .aborted, .logNoValidBlocks] },
       none) := by
  simp [run, Tracker.track_command_event, Tracker.log]

/-- Claim C10: run-level completion.  On a validated non-empty plan whose
block execution yields `(t2, r)`: when `r = none` (no exception — which is
always the case in a dry run) the command appends exactly one run-level
"completed" event and then the legacy-tracker call with the original token
list; when `r = some e` it appends a run-level "failed" event instead and
re-raises `e`.  The engine itself appends no run-level events, so the
appended one is the only new run-level event. -/
theorem run_level_completion (t : Tracker) (blocks : List String) (bs : List Block)
    (validate : List Block → Bool) (dry_run : Bool) (t2 : Tracker) (r : Option Exc)
    (hne : bs.isEmpty = false) (hval : validate bs = true)
    (heng : run_blocks (t.log .logValidated) bs dry_run = (t2, r)) :
    (r = none →
      run t blocks (.ok bs) validate dry_run =
        ((t2.track_command_event .completed).log (.legacyTrackRun blocks), none)) ∧
    (∀ e, r = some e →
      run t blocks (.ok bs) validate dry_run =
        (t2.track_command_event .failed, some e)) ∧
    (dry_run = true → r = none) ∧
    t2.trace.countP TraceItem.isCommandEvent =
      t.trace.countP TraceItem.isCommandEvent := by
  refine ⟨?_, ?_, ?_, ?_⟩
  · intro hr
    subst hr
    simp [run, hne, hval, heng]
  · intro e hr
    subst hr
    simp [run, hne, hval, heng]
  · intro hd
    subst hd
    rw [run_blocks, runBlocksAux_true_eq] at heng
    have hsnd := congrArg Prod.snd heng
    simpa using hsnd.symm
  · cases dry_run with
    | false =>
        rw [run_blocks, runBlocksAux_false_eq] at heng
        have ht2 := congrArg Prod.fst heng
        simp only at ht2
        rw [← ht2]
        simp [Tracker.log, List.countP_append, countCommandEvent_execTrace,
          TraceItem.isCommandEvent, List.countP_cons]
    | true =>
        rw [run_blocks, runBlocksAux_true_eq] at heng
        have ht2 := congrArg Prod.fst heng
        simp only at ht2
        rw [← ht2]
        simp [Tracker.log, List.countP_append, countCommandEvent_dryTrace,
          TraceItem.isCommandEvent, List.countP_cons]

/-- Witness for C10 at a concrete validated one-unit plan whose execution
succeeds. -/
theorem run_level_completion_app :
    ((run_blocks (sampleTracker.log .logValidated) [sampleBlock] false).2 = none →
      run sampleTracker ["dbt:run"] (.ok [sampleBlock]) (fun _ => true) false =
        (((run_blocks (sampleTracker.log .logValidated)
              [sampleBlock] false).1.track_command_event .completed).log
            (.legacyTrackRun ["dbt:run"]), none)) ∧
    (∀ e, (run_blocks (sampleTracker.log .logValidated) [sampleBlock] false).2 = some e →
      run sampleTracker ["dbt:run"] (.ok [sampleBlock]) (fun _ => true) false =
        ((run_blocks (sampleTracker.log .logValidated)
            [sampleBlock] false).1.track_command_event .failed, some e)) ∧
    (false = true →
      (run_blocks (sampleTracker.log .logValidated) [sampleBlock] false).2 = none) ∧
    (run_blocks (sampleTracker.log .logValidated)
        [sampleBlock] false).1.trace.countP TraceItem.isCommandEvent =
      sampleTracker.trace.countP TraceItem.isCommandEvent :=
  run_level_completion sampleTracker ["dbt:run"] [sampleBlock] (fun _ => true) false
    (run_blocks (sampleTracker.log .logValidated) [sampleBlock] false).1
    (run_blocks (sampleTracker.log .logValidated) [sampleBlock] false).2
    rfl rfl rfl

end Meltano

